import Mathlib

/-!
Verification of the DHCP subsystem of the NetworkManager excerpt.

This file gives a shallow embedding of the two source files that the
specification's claims are about:

* `src/dhcp-manager/nm-dhcp-manager.c`  — option decoding
  (`garray_to_string`, `get_option`), event dispatch
  (`nm_dhcp_manager_handle_event`), the client registry
  (`nm_dhcp_manager_new`, `nm_dhcp_manager_start_client`, `remove_client`,
  `add_client`, `client_state_changed`, `client_timeout`).
* `src/dhcp-manager/nm-dhcp-dhcpcd.c` — RFC-3442 classless static route
  decoding (`real_ip4_process_classless_routes`).

Modelling conventions:

* Bytes are `Nat` (the C code reads them as `unsigned char`, 0..255).
* C strings are Lean `String`s; a decoded option string never contains an
  interior NUL (proved below), so the Lean string is exactly the C string's
  content up to its terminator.
* `unsigned long` is 64 bits and `int`/`GPid` are 32 bits (LP64 Linux, the
  only platform this code targets); overflow and casts are made explicit.
* `strtoul`/`strtol` follow glibc: leading `isspace` characters are
  skipped, one optional sign is accepted, the longest digit run is
  converted; out-of-range values clamp and set ERANGE; when no digits are
  present the result is 0 and errno is NOT set (glibc sets EINVAL only for
  an unsupported base, which never happens here).
* `inet_pton(AF_INET)` follows glibc: exactly four dot-separated runs of
  decimal digits, each of value at most 255 and without leading zeros.
  The four octets are packed into a single `Nat` below 2^32; the code only
  ever compares packed addresses for equality (and against 0 = 0.0.0.0),
  so the byte order of the packing is immaterial and we use big-endian.
* Logging (`nm_warning` / `nm_info`) is modelled as a list of `LogMsg`
  values describing which log statement fired.
* GLib hash tables are association lists (first binding wins, matching a
  table with unique keys); iteration order is list order.
-/

namespace NMDhcp

/-! ### Byte-level option decoding (nm-dhcp-manager.c, garray_to_string) -/

/-- Body of the conversion loop of `garray_to_string`: a NUL byte becomes a
space, a byte above 127 becomes a question mark, all other bytes are kept. -/
def convByte (c : Nat) : Nat :=
  if c = 0 then 32 else if 127 < c then 63 else c

/-- The `for (i = 0; i < array->len; i++)` loop of `garray_to_string`,
appending converted bytes to the accumulating GString. -/
def garrayLoop (acc : List Nat) : List Nat → List Nat
  | [] => acc
  | c :: rest => garrayLoop (acc ++ [convByte c]) rest

/-- `garray_to_string` (nm-dhcp-manager.c lines 69-100): converts the raw
byte array and appends the terminating zero byte. -/
def garray_to_string (data : List Nat) : List Nat :=
  garrayLoop [] data ++ [0]

/-- The C string returned by `garray_to_string`, read as text: its bytes up
to (excluding) the terminating NUL.  Every byte before the terminator is a
printable ASCII code below 128 (proved below), so `Char.ofNat` is exact. -/
def decodedStr (data : List Nat) : String :=
  String.mk ((garray_to_string data).dropLast.map Char.ofNat)

/-- A value stored in the D-Bus event hash table: either a byte array
(`DBUS_TYPE_G_UCHAR_ARRAY`) or a GValue of some other type. -/
inductive OptVal
  | bytes (data : List Nat)
  | other
deriving DecidableEq

/-- GLib hash table lookup over an association list (unique keys). -/
def lookupOpt : List (String × OptVal) → String → Option OptVal
  | [], _ => none
  | (k, v) :: rest, key => if k == key then some v else lookupOpt rest key

/-- `get_option` (nm-dhcp-manager.c lines 150-167): fetch the value stored
under `key`; `NULL` when the key is absent or the value is not a byte
array, otherwise the `garray_to_string` decoding of the byte array. -/
def get_option (options : List (String × OptVal)) (key : String) : Option String :=
  match lookupOpt options key with
  | none => none
  | some (OptVal.bytes data) => some (decodedStr data)
  | some OptVal.other => none

/-! ### C number parsing (strtoul / strtol, glibc, LP64) -/

/-- `ULONG_MAX` on LP64 Linux. -/
def ulongMax : Nat := 18446744073709551615

/-- `LONG_MAX` on LP64 Linux. -/
def longMax : Int := 9223372036854775807

/-- `LONG_MIN` on LP64 Linux. -/
def longMin : Int := -9223372036854775808

/-- C `isspace` in the POSIX locale. -/
def isSpaceC (c : Char) : Bool :=
  c == ' ' || c == '\t' || c == '\n' || c == '\r' || c.toNat == 11 || c.toNat == 12

/-- Value of a run of decimal digits. -/
def digitsVal (l : List Char) : Nat :=
  l.foldl (fun a c => a * 10 + (c.toNat - 48)) 0

/-- Result of `strtoul`: the returned `unsigned long` and whether errno was
set to ERANGE. -/
structure StrtoulResult where
  val : Nat
  erange : Bool
deriving DecidableEq

/-- Sign and remaining characters after the optional single sign of a
strto* subject sequence. -/
def splitSign : List Char → Bool × List Char
  | '-' :: rest => (true, rest)
  | '+' :: rest => (false, rest)
  | l => (false, l)

/-- `strtoul (s, NULL, 10)` under glibc on LP64: skip spaces, optional
sign, longest digit run; overflow returns `ULONG_MAX` with ERANGE; a
negative subject is negated in unsigned arithmetic; no digits yield 0
without any errno. -/
def strtoul10 (s : String) : StrtoulResult :=
  let l := s.data.dropWhile isSpaceC
  let p := splitSign l
  let n := digitsVal (p.2.takeWhile Char.isDigit)
  if ulongMax < n then ⟨ulongMax, true⟩
  else if p.1 then ⟨(ulongMax + 1 - n) % (ulongMax + 1), false⟩
  else ⟨n, false⟩

/-- Result of `strtol`: the returned `long` and whether errno was set to
ERANGE. -/
structure StrtolResult where
  val : Int
  erange : Bool
deriving DecidableEq

/-- `strtol (s, NULL, 10)` under glibc on LP64: as `strtoul10` but signed,
clamping to `LONG_MIN`/`LONG_MAX` with ERANGE on overflow. -/
def strtol10 (s : String) : StrtolResult :=
  let l := s.data.dropWhile isSpaceC
  let p := splitSign l
  let n : Int := digitsVal (p.2.takeWhile Char.isDigit)
  let i := if p.1 then -n else n
  if longMax < i then ⟨longMax, true⟩
  else if i < longMin then ⟨longMin, true⟩
  else ⟨i, false⟩

/-- The C cast `(int) x` of a non-negative integer value (two's complement
truncation to 32 bits, gcc semantics). -/
def toInt32 (i : Int) : Int :=
  let m := i % 4294967296
  if m < 2147483648 then m else m - 4294967296

/-- The C cast `(GPid) temp` of an `unsigned long` (GPid is `int`). -/
def toGPid (n : Nat) : Int := toInt32 (n : Int)

/-- The C conversion of an `int` to `guint32` (used when the parsed cidr is
stored into the route's prefix field). -/
def toU32 (i : Int) : Nat := (i % 4294967296).toNat

/-! ### inet_pton(AF_INET) (glibc) -/

/-- Split a character list at every occurrence of `sep`, keeping empty
fields — the behaviour of both `g_strsplit (s, sep, 0)` and the
dot-separation of `inet_pton`.  An empty input yields one empty field. -/
def splitChar (sep : Char) : List Char → List (List Char)
  | [] => [[]]
  | c :: rest =>
    if c = sep then [] :: splitChar sep rest
    else
      match splitChar sep rest with
      | [] => [[c]]
      | g :: gs => (c :: g) :: gs

/-- One dotted-decimal octet as accepted by glibc `inet_pton`: a non-empty
digit run, no leading zero (unless the octet is exactly "0"), value at most
255. -/
def octetOk (l : List Char) : Bool :=
  !l.isEmpty && l.all Char.isDigit &&
  (l.length == 1 || !(l.head? == some '0')) &&
  decide (digitsVal l ≤ 255)

/-- `inet_pton (AF_INET, s, &addr)` under glibc, with the four octets
packed big-endian into one `Nat`; `none` when the call fails. -/
def inet_pton4 (s : String) : Option Nat :=
  match splitChar '.' s.data with
  | [a, b, c, d] =>
    if octetOk a && octetOk b && octetOk c && octetOk d then
      some (digitsVal a * 16777216 + digitsVal b * 65536 + digitsVal c * 256 + digitsVal d)
    else none
  | _ => none

/-- Readable dotted-quad notation for packed addresses. -/
def ipv4 (a b c d : Nat) : Nat := a * 16777216 + b * 65536 + c * 256 + d

/-! ### Classless static route parsing (nm-dhcp-dhcpcd.c,
real_ip4_process_classless_routes) -/

/-- An `NMIP4Route` as populated by the route loop: `nm_ip4_route_set_dest`,
`nm_ip4_route_set_prefix` (a `guint32`), `nm_ip4_route_set_next_hop`. -/
structure Ip4Route where
  dest : Nat
  prefixLen : Nat
  nextHop : Nat
deriving DecidableEq

/-- Which `nm_warning`/`nm_info` statement of
`real_ip4_process_classless_routes` fired, with its arguments. -/
inductive LogMsg
  | oddTokens
  | badCidr (s : String)
  | badDest (s : String)
  | badNextHop (s : String)
  | addedRoute (dest : String) (cidr : Int) (nh : String)
deriving DecidableEq

/-- Observable outcome of `real_ip4_process_classless_routes`: the return
value `have_routes`, the routes passed to `nm_ip4_config_take_route` in
order, the last value written through `*gwaddr` (none if never written),
and the log statements in order. -/
structure CRResult where
  haveRoutes : Bool
  routes : List Ip4Route
  gw : Option Nat
  logs : List LogMsg
deriving DecidableEq

/-- The state at the top of the route loop, before any pair is processed. -/
def emptyCR : CRResult := ⟨false, [], none, []⟩

/-- `strchr (*r, '/')` followed by `*slash = '\0'`: the token's text before
the first slash, and the text after it (none when there is no slash). -/
def breakSlash : List Char → List Char × Option (List Char)
  | [] => ([], none)
  | c :: rest =>
    if c = '/' then ([], some rest)
    else
      match breakSlash rest with
      | (d, r) => (c :: d, r)

/-- String-level view of `breakSlash`. -/
def splitSlash (tok : String) : String × Option String :=
  match breakSlash tok.data with
  | (d, r) => (String.mk d, r.map String.mk)

/-- The body of one route-loop iteration after the cidr has been
determined: validate the destination and next-hop addresses with
`inet_pton`, then either record the default gateway (the source writes
`rt_addr.s_addr`, the destination, into `*gwaddr`) or append the route. -/
def processPairChecked (st : CRResult) (destStr nhTok : String) (cidr : Int) : CRResult :=
  match inet_pton4 destStr with
  | none => { st with logs := st.logs ++ [LogMsg.badDest destStr] }
  | some rtAddr =>
    match inet_pton4 nhTok with
    | none => { st with logs := st.logs ++ [LogMsg.badNextHop nhTok] }
    | some rtRoute =>
      if cidr = 0 ∧ rtAddr = 0 then
        { st with haveRoutes := true, gw := some rtAddr }
      else
        { st with
            haveRoutes := true,
            routes := st.routes ++ [⟨rtAddr, toU32 cidr, rtRoute⟩],
            logs := st.logs ++ [LogMsg.addedRoute destStr cidr nhTok] }

/-- One full iteration of the route loop for the pair
`(destTok, nhTok)`: split off the cidr after the first slash (default 32
when absent), reject it only when `strtol` flagged an errno, then continue
with `processPairChecked`. -/
def processPair (st : CRResult) (destTok nhTok : String) : CRResult :=
  match splitSlash destTok with
  | (d, none) => processPairChecked st d nhTok 32
  | (d, some cs) =>
    let r := strtol10 cs
    if r.erange then { st with logs := st.logs ++ [LogMsg.badCidr cs] }
    else processPairChecked st d nhTok (toInt32 r.val)

/-- The `for (r = routes; *r; r += 2)` loop over the token vector. -/
def processPairs : CRResult → List String → CRResult
  | st, a :: b :: rest => processPairs (processPair st a b) rest
  | st, _ => st

/-- `g_strsplit (str, " ", 0)`: splits at every space keeping empty
tokens; an empty string yields an empty vector. -/
def splitTokens (s : String) : List String :=
  if s.data.isEmpty then [] else (splitChar ' ' s.data).map String.mk

/-- GLib hash table lookup in the client's string-valued option table. -/
def lookupStr : List (String × String) → String → Option String
  | [], _ => none
  | (k, v) :: rest, key => if k == key then some v else lookupStr rest key

/-- The option fetch at the top of `real_ip4_process_classless_routes`:
`new_classless_static_routes` first, falling back to the Microsoft variant
`new_ms_classless_static_routes`. -/
def lookupRoutesOption (options : List (String × String)) : Option String :=
  match lookupStr options "new_classless_static_routes" with
  | some s => some s
  | none => lookupStr options "new_ms_classless_static_routes"

/-- `real_ip4_process_classless_routes` (nm-dhcp-dhcpcd.c lines 135-210). -/
def real_ip4_process_classless_routes (options : List (String × String)) : CRResult :=
  match lookupRoutesOption options with
  | none => emptyCR
  | some s =>
    if s.data.isEmpty then emptyCR
    else if (splitTokens s).length = 0 then emptyCR
    else if (splitTokens s).length % 2 ≠ 0 then { emptyCR with logs := [LogMsg.oddTokens] }
    else processPairs emptyCR (splitTokens s)

/-- A pair that the route loop detects as invalid and skips: the cidr part
set ERANGE in `strtol`, or the destination or next-hop failed
`inet_pton` (checked in source order). -/
def pairRejected (destTok nhTok : String) : Bool :=
  match splitSlash destTok with
  | (d, none) => (inet_pton4 d).isNone || (inet_pton4 nhTok).isNone
  | (d, some cs) =>
    if (strtol10 cs).erange then true
    else (inet_pton4 d).isNone || (inet_pton4 nhTok).isNone

/-- Pointwise combination of route-loop effects: used to factor the loop
state through an arbitrary starting state. -/
def mergeCR (st d : CRResult) : CRResult :=
  { haveRoutes := st.haveRoutes || d.haveRoutes,
    routes := st.routes ++ d.routes,
    gw := match d.gw with
          | some g => some g
          | none => st.gw,
    logs := st.logs ++ d.logs }

/-! ### The DHCP manager registry (nm-dhcp-manager.c) -/

/-- The two compiled-in client back-ends (`NM_TYPE_DHCP_DHCLIENT`,
`NM_TYPE_DHCP_DHCPCD`). -/
inductive ClientType
  | dhclient
  | dhcpcd
deriving DecidableEq

/-- Modelled from the spec: the `NMDHCPState` enumeration of
nm-dhcp-client.h, whose header is not part of the excerpt.  The spec lists
the closed set PREINIT, BOUND, RENEW, REBIND, REBOOT, RELEASE, EXPIRE,
FAIL, TIMEOUT, ABEND, END; `DHC_END` is rendered `ended` because `end` is
a Lean keyword. -/
inductive DhcpState
  | preinit
  | bound
  | renew
  | rebind
  | reboot
  | release
  | expire
  | fail
  | timeout
  | abend
  | ended
deriving DecidableEq

/-- A live `NMDHCPClient` as the manager sees it: `id` is the GObject
identity (distinct for every constructed client), `ctype` its concrete
GType, `iface` the value of `nm_dhcp_client_get_iface`, `pid` the value of
`nm_dhcp_client_get_pid`. -/
structure Client where
  id : Nat
  ctype : ClientType
  iface : String
  pid : Int
deriving DecidableEq

/-- `NMDHCPManagerPrivate` as far as the registry is concerned: the
configured back-end type, the `clients` hash table (keyed by client object,
modelled as a list), and a counter supplying fresh object identities. -/
structure MgrState where
  clientType : ClientType
  clients : List Client
  nextId : Nat
deriving DecidableEq

/-- `nm_dhcp_manager_new` (lines 229-288): selects the back-end from the
selector string, provided the corresponding helper path constant is
non-empty; any other selector fails with an error.  The registry starts
empty. -/
def nm_dhcp_manager_new (sel : String) (dhclientPathNonempty dhcpcdPathNonempty : Bool) :
    Option MgrState :=
  if sel == "dhclient" && dhclientPathNonempty then
    some ⟨ClientType.dhclient, [], 0⟩
  else if sel == "dhcpcd" && dhcpcdPathNonempty then
    some ⟨ClientType.dhcpcd, [], 0⟩
  else none

/-- `remove_client` (lines 293-313): disconnects the two signal handlers
(not observable in this model) and removes the client object from the
`clients` hash table. -/
def remove_client (s : MgrState) (c : Client) : MgrState :=
  { s with clients := s.clients.filter (fun x => x.id != c.id) }

/-- `get_client_for_iface` (lines 125-148): first client in iteration
order whose interface matches. -/
def get_client_for_iface (s : MgrState) (iface : String) : Option Client :=
  s.clients.find? (fun c => c.iface == iface)

/-- `get_client_for_pid` (lines 102-123): first client in iteration order
whose pid matches. -/
def get_client_for_pid (clients : List Client) (pid : Int) : Option Client :=
  clients.find? (fun c => c.pid == pid)

/-- `add_client` (lines 328-341): connect the state-changed and timeout
handlers and insert the client into the hash table. -/
def add_client (s : MgrState) (c : Client) : MgrState :=
  { s with clients := c :: s.clients }

/-- Everything observable about one `nm_dhcp_manager_start_client` call:
the manager state afterwards, the client object the call constructed, the
returned pointer (`none` when the spawn failed), and the old client that
was stopped and removed first (if any). -/
structure StartResult where
  state : MgrState
  newClient : Client
  ret : Option Client
  stoppedOld : Option Client
deriving DecidableEq

/-- `nm_dhcp_manager_start_client` (lines 344-404): stop and remove any
existing client for `iface`; construct a new client — the source hard-wires
`NM_TYPE_DHCP_DHCLIENT` here — and add it; run `nm_dhcp_client_start`
(whose success and spawned pid are environment inputs `spawnOk` /
`spawnPid`); on failure remove the new client again and return NULL.
The hostname-provider settings duplication only alters the settings passed
to the spawn and is not part of the registry state. -/
def nm_dhcp_manager_start_client (s : MgrState) (iface : String)
    (spawnOk : Bool) (spawnPid : Int) : StartResult :=
  let old := get_client_for_iface s iface
  let s1 := match old with
            | some c => remove_client s c
            | none => s
  let newC : Client := ⟨s1.nextId, ClientType.dhclient, iface, spawnPid⟩
  let s2 := { add_client s1 newC with nextId := s1.nextId + 1 }
  if spawnOk then ⟨s2, newC, some newC, old⟩
  else ⟨remove_client s2 newC, newC, none, old⟩

/-- `client_state_changed` (lines 315-320): the manager removes the client
exactly when the new state is `DHC_ABEND` or `DHC_END`. -/
def client_state_changed (s : MgrState) (c : Client) (newState : DhcpState) : MgrState :=
  if newState = DhcpState.abend ∨ newState = DhcpState.ended then remove_client s c else s

/-- `client_timeout` (lines 322-326): the timeout signal removes the
client. -/
def client_timeout (s : MgrState) (c : Client) : MgrState :=
  remove_client s c

/-- The manager states reachable through the registry-mutating entry
points of nm-dhcp-manager.c. -/
inductive Reachable : MgrState → Prop
  | init (sel : String) (dOk cOk : Bool) (s : MgrState) :
      nm_dhcp_manager_new sel dOk cOk = some s → Reachable s
  | start (iface : String) (ok : Bool) (pid : Int) (s : MgrState) :
      Reachable s → Reachable (nm_dhcp_manager_start_client s iface ok pid).state
  | stateChanged (c : Client) (st : DhcpState) (s : MgrState) :
      Reachable s → Reachable (client_state_changed s c st)
  | timeoutSignal (c : Client) (s : MgrState) :
      Reachable s → Reachable (client_timeout s c)

/-- Registry well-formedness: clients have pairwise distinct interfaces and
object identities, and every identity is below the fresh-identity counter. -/
def RegOk (s : MgrState) : Prop :=
  s.clients.Pairwise (fun a b => a.iface ≠ b.iface ∧ a.id ≠ b.id) ∧
  ∀ c ∈ s.clients, c.id < s.nextId

/-! ### Event dispatch (nm_dhcp_manager_handle_event) -/

/-- How `nm_dhcp_manager_handle_event` disposed of one bus event: which
`goto out` was taken, or delivery to a client via
`nm_dhcp_client_new_options`. -/
inductive HEResult
  | noInterface
  | noPid
  | badPid
  | unknownPid
  | ifaceMismatch
  | noReason
  | delivered (c : Client) (reason : String)
deriving DecidableEq

/-- `nm_dhcp_manager_handle_event` (lines 169-227): decode `interface`,
`pid` and `reason` with `get_option`; parse the pid with
`strtoul (pid_str, NULL, 10)` and drop the event only when the result is
`ULONG_MAX` with errno ERANGE; look the client up by the pid cast to
`GPid`; drop on unknown pid or interface mismatch; otherwise forward the
options and reason to the client. -/
def nm_dhcp_manager_handle_event (clients : List Client)
    (options : List (String × OptVal)) : HEResult :=
  match get_option options "interface" with
  | none => HEResult.noInterface
  | some iface =>
    match get_option options "pid" with
    | none => HEResult.noPid
    | some pidStr =>
      let r := strtoul10 pidStr
      if r.val = ulongMax ∧ r.erange = true then HEResult.badPid
      else
        match get_client_for_pid clients (toGPid r.val) with
        | none => HEResult.unknownPid
        | some client =>
          if iface ≠ client.iface then HEResult.ifaceMismatch
          else
            match get_option options "reason" with
            | none => HEResult.noReason
            | some reason => HEResult.delivered client reason

/-! ## Helper lemmas -/

theorem garrayLoop_eq (l : List Nat) : ∀ acc, garrayLoop acc l = acc ++ l.map convByte := by
  induction l with
  | nil => intro acc; simp [garrayLoop]
  | cons c rest ih => intro acc; simp [garrayLoop, ih]

theorem garray_to_string_eq (data : List Nat) :
    garray_to_string data = data.map convByte ++ [0] := by
  simp [garray_to_string, garrayLoop_eq]

theorem convByte_ne_zero (c : Nat) : convByte c ≠ 0 := by
  unfold convByte
  split
  · decide
  · split
    · decide
    · omega

theorem convByte_le (c : Nat) : convByte c ≤ 127 := by
  unfold convByte
  split
  · decide
  · split
    · decide
    · omega

/-! ## Claim theorems -/

/-- Claim C3: `garray_to_string` translates the byte array byte-wise —
each 0x00 becomes 0x20 (space), each byte above 127 becomes 0x3F, all
other bytes are preserved in order — and appends a terminating zero byte;
consequently the result has no 0x00 byte before its terminating sentinel
and no byte above 127. -/
theorem c3_decode_string_bytewise (data : List Nat) :
    garray_to_string data =
      data.map (fun c => if c = 0 then 32 else if 127 < c then 63 else c) ++ [0] ∧
    (∀ b ∈ (garray_to_string data).dropLast, b ≠ 0) ∧
    (∀ b ∈ garray_to_string data, b ≤ 127) := by
  have h := garray_to_string_eq data
  refine ⟨h, ?_, ?_⟩
  · rw [h, List.dropLast_concat]
    intro b hb
    obtain ⟨x, _, rfl⟩ := List.mem_map.mp hb
    exact convByte_ne_zero x
  · intro b hb
    rw [h] at hb
    rcases List.mem_append.mp hb with h1 | h1
    · obtain ⟨x, _, rfl⟩ := List.mem_map.mp h1
      exact convByte_le x
    · simp only [List.mem_singleton] at h1
      omega

/-- Claim C10: a key present with a zero-length byte array decodes to the
empty string (just the terminating sentinel), a present value; `get_option`
returns absent exactly when the key is missing or its value is not a byte
array. -/
theorem c10_empty_value_present (options : List (String × OptVal)) (key : String) :
    (lookupOpt options key = some (OptVal.bytes []) → get_option options key = some "") ∧
    (get_option options key = none ↔
      (lookupOpt options key = none ∨ lookupOpt options key = some OptVal.other)) ∧
    garray_to_string [] = [0] := by
  refine ⟨?_, ?_, rfl⟩
  · intro h
    simp only [get_option, h]
    rfl
  · cases h : lookupOpt options key with
    | none => simp [get_option, h]
    | some v =>
      cases v with
      | bytes data => simp [get_option, h]
      | other => simp [get_option, h]

/-- Witness for C10 at a concrete table holding an empty byte array. -/
theorem c10_empty_value_present_witness :
    lookupOpt [("new_ip_address", OptVal.bytes [])] "new_ip_address"
      = some (OptVal.bytes []) ∧
    get_option [("new_ip_address", OptVal.bytes [])] "new_ip_address" = some "" :=
  ⟨rfl, (c10_empty_value_present [("new_ip_address", OptVal.bytes [])] "new_ip_address").1 rfl⟩

/-- Claim C1 (the code contradicts it): on
"10.0.0.0/8 192.0.2.1 0.0.0.0/0 192.0.2.254" exactly one route
10.0.0.0/8 via 192.0.2.1 is stored and the 0.0.0.0/0 pair is diverted to
`*gwaddr` instead of the route list, but the value written is
`rt_addr.s_addr` — the pair's destination 0.0.0.0, numerically 0 — not the
next-hop 192.0.2.254 the claim requires. -/
theorem c1_default_gateway_value :
    real_ip4_process_classless_routes
      [("new_classless_static_routes", "10.0.0.0/8 192.0.2.1 0.0.0.0/0 192.0.2.254")] =
      { haveRoutes := true,
        routes := [⟨ipv4 10 0 0 0, 8, ipv4 192 0 2 1⟩],
        gw := some 0,
        logs := [LogMsg.addedRoute "10.0.0.0" 8 "192.0.2.1"] } ∧
    some (0 : Nat) ≠ some (ipv4 192 0 2 254) :=
  ⟨rfl, by decide⟩

/-- Claim C7: an odd number of space-separated tokens is rejected as a
whole — `have_routes` is false, no route is stored, no default gateway is
set, and the rejection is logged. -/
theorem c7_odd_token_count (options : List (String × String)) (s : String)
    (hs : lookupRoutesOption options = some s)
    (hodd : (splitTokens s).length % 2 = 1) :
    real_ip4_process_classless_routes options =
      { haveRoutes := false, routes := [], gw := none, logs := [LogMsg.oddTokens] } := by
  unfold real_ip4_process_classless_routes
  rw [hs]
  have hc : ¬ (s.data.isEmpty = true) := by
    intro hc
    rw [splitTokens, if_pos hc] at hodd
    simp at hodd
  have h0 : ¬ ((splitTokens s).length = 0) := by omega
  show (if s.data.isEmpty = true then emptyCR
        else if (splitTokens s).length = 0 then emptyCR
        else if (splitTokens s).length % 2 ≠ 0 then { emptyCR with logs := [LogMsg.oddTokens] }
        else processPairs emptyCR (splitTokens s)) = _
  rw [if_neg hc, if_neg h0, if_pos (by omega : (splitTokens s).length % 2 ≠ 0)]
  rfl

/-- Witness for C7 on the spec's S4 scenario input. -/
theorem c7_odd_token_count_witness :
    real_ip4_process_classless_routes
      [("new_classless_static_routes", "10.0.0.0/8 10.0.0.1 192.168.0.0/16")] =
      { haveRoutes := false, routes := [], gw := none, logs := [LogMsg.oddTokens] } :=
  c7_odd_token_count [("new_classless_static_routes", "10.0.0.0/8 10.0.0.1 192.168.0.0/16")]
    "10.0.0.0/8 10.0.0.1 192.168.0.0/16" rfl rfl

/-- Claim C9 (the code contradicts it): the pair "1.2.3.4/33 5.6.7.8" has a
cidr outside [0,32], yet the loop's only cidr check is for errno
EINVAL/ERANGE from `strtol`, which 33 does not trigger, so a route with
prefix length 33 is stored (and no warning logged for it). -/
theorem c9_out_of_range_prefix_stored :
    real_ip4_process_classless_routes [("new_classless_static_routes", "1.2.3.4/33 5.6.7.8")] =
      { haveRoutes := true,
        routes := [⟨ipv4 1 2 3 4, 33, ipv4 5 6 7 8⟩],
        gw := none,
        logs := [LogMsg.addedRoute "1.2.3.4" 33 "5.6.7.8"] } ∧
    ¬ ((33 : Nat) ≤ 32) :=
  ⟨rfl, by decide⟩

/-- Counterexample to claim C8 as stated: the pair "10.0.0.0/x 1.2.3.4"
has an unparsable cidr suffix, yet it is not skipped and no warning is
logged: glibc `strtol` returns 0 without setting errno, so the pair is
accepted as a route with prefix 0. -/
theorem c8_counterexample_unparsable_cidr :
    real_ip4_process_classless_routes [("new_classless_static_routes", "10.0.0.0/x 1.2.3.4")] =
      { haveRoutes := true,
        routes := [⟨ipv4 10 0 0 0, 0, ipv4 1 2 3 4⟩],
        gw := none,
        logs := [LogMsg.addedRoute "10.0.0.0" 0 "1.2.3.4"] } ∧
    pairRejected "10.0.0.0/x" "1.2.3.4" = false :=
  ⟨rfl, rfl⟩

theorem mergeCR_emptyCR (st : CRResult) : mergeCR st emptyCR = st := by
  simp [mergeCR, emptyCR]

theorem processPairChecked_merge (st : CRResult) (d nh : String) (cidr : Int) :
    processPairChecked st d nh cidr = mergeCR st (processPairChecked emptyCR d nh cidr) := by
  unfold processPairChecked
  cases inet_pton4 d with
  | none => simp [mergeCR, emptyCR]
  | some rtAddr =>
    cases inet_pton4 nh with
    | none => simp [mergeCR, emptyCR]
    | some rtRoute =>
      by_cases h : cidr = 0 ∧ rtAddr = 0
      · simp [mergeCR, emptyCR, if_pos h]
      · simp [mergeCR, emptyCR, if_neg h]

theorem processPair_noslash (st : CRResult) (a b d : String) (h : splitSlash a = (d, none)) :
    processPair st a b = processPairChecked st d b 32 := by
  unfold processPair
  rw [h]

theorem processPair_slash (st : CRResult) (a b d cs : String)
    (h : splitSlash a = (d, some cs)) :
    processPair st a b =
      (if (strtol10 cs).erange = true then { st with logs := st.logs ++ [LogMsg.badCidr cs] }
       else processPairChecked st d b (toInt32 (strtol10 cs).val)) := by
  unfold processPair
  rw [h]

theorem pairRejected_noslash (a b d : String) (h : splitSlash a = (d, none)) :
    pairRejected a b = ((inet_pton4 d).isNone || (inet_pton4 b).isNone) := by
  unfold pairRejected
  rw [h]

theorem pairRejected_slash (a b d cs : String) (h : splitSlash a = (d, some cs)) :
    pairRejected a b =
      (if (strtol10 cs).erange = true then true
       else ((inet_pton4 d).isNone || (inet_pton4 b).isNone)) := by
  unfold pairRejected
  rw [h]

theorem processPair_merge (st : CRResult) (a b : String) :
    processPair st a b = mergeCR st (processPair emptyCR a b) := by
  rcases hsp : splitSlash a with ⟨d, _ | cs⟩
  · rw [processPair_noslash st a b d hsp, processPair_noslash emptyCR a b d hsp]
    exact processPairChecked_merge st d b 32
  · rw [processPair_slash st a b d cs hsp, processPair_slash emptyCR a b d cs hsp]
    by_cases h : (strtol10 cs).erange = true
    · rw [if_pos h, if_pos h]
      simp [mergeCR, emptyCR]
    · rw [if_neg h, if_neg h]
      exact processPairChecked_merge st d b (toInt32 (strtol10 cs).val)

theorem mergeCR_assoc (a b c : CRResult) :
    mergeCR (mergeCR a b) c = mergeCR a (mergeCR b c) := by
  cases hc : c.gw <;> cases hb : b.gw <;>
    simp [mergeCR, hb, hc, Bool.or_assoc, List.append_assoc]

theorem processPairs_merge : ∀ (l : List String) (st : CRResult),
    processPairs st l = mergeCR st (processPairs emptyCR l)
  | [], st => by simp [processPairs, mergeCR_emptyCR]
  | [a], st => by simp [processPairs, mergeCR_emptyCR]
  | a :: b :: rest, st => by
    have h1 : processPairs st (a :: b :: rest) = processPairs (processPair st a b) rest := rfl
    have h2 : processPairs emptyCR (a :: b :: rest)
        = processPairs (processPair emptyCR a b) rest := rfl
    rw [h1, h2, processPairs_merge rest (processPair st a b),
        processPairs_merge rest (processPair emptyCR a b),
        processPair_merge st a b, mergeCR_assoc]

theorem processPairs_append : ∀ (l1 : List String), l1.length % 2 = 0 →
    ∀ (st : CRResult) (l2 : List String),
    processPairs st (l1 ++ l2) = processPairs (processPairs st l1) l2
  | [], _, st, l2 => rfl
  | [a], h, st, l2 => by simp at h
  | a :: b :: rest, h, st, l2 => by
    have h2 : rest.length % 2 = 0 := by
      simp only [List.length_cons] at h
      omega
    show processPairs (processPair st a b) (rest ++ l2)
        = processPairs (processPairs (processPair st a b) rest) l2
    exact processPairs_append rest h2 (processPair st a b) l2

theorem pairRejected_delta (a b : String) (h : pairRejected a b = true) :
    ∃ w, processPair emptyCR a b = { emptyCR with logs := [w] } := by
  rcases hsp : splitSlash a with ⟨d, _ | cs⟩
  · rw [pairRejected_noslash a b d hsp] at h
    rw [processPair_noslash emptyCR a b d hsp]
    unfold processPairChecked
    cases hd : inet_pton4 d with
    | none => exact ⟨LogMsg.badDest d, by simp [emptyCR]⟩
    | some x =>
      cases hb : inet_pton4 b with
      | none => exact ⟨LogMsg.badNextHop b, by simp [emptyCR]⟩
      | some y =>
        rw [hd, hb] at h
        simp at h
  · rw [pairRejected_slash a b d cs hsp] at h
    rw [processPair_slash emptyCR a b d cs hsp]
    by_cases he : (strtol10 cs).erange = true
    · rw [if_pos he]
      exact ⟨LogMsg.badCidr cs, by simp [emptyCR]⟩
    · rw [if_neg he]
      rw [if_neg he] at h
      unfold processPairChecked
      cases hd : inet_pton4 d with
      | none => exact ⟨LogMsg.badDest d, by simp [emptyCR]⟩
      | some x =>
        cases hb : inet_pton4 b with
        | none => exact ⟨LogMsg.badNextHop b, by simp [emptyCR]⟩
        | some y =>
          rw [hd, hb] at h
          simp at h

/-- Claim C8 (amended): a pair that the loop detects as invalid — ERANGE
from the cidr's `strtol`, invalid destination, or invalid next-hop — is
skipped with exactly one warning and does not disturb any other pair: the
routes, gateway write and `have_routes` produced from the token list are
those of the list with that pair removed.  (As the counterexample shows,
an unparsable cidr suffix that sets no errno is NOT in this detected set:
glibc returns 0 and the pair is accepted with the parsed digit prefix.) -/
theorem c8_invalid_pair_skipped (st : CRResult) (pre suf : List String) (a b : String)
    (hrej : pairRejected a b = true) (hpre : pre.length % 2 = 0) :
    (∃ w, processPair (processPairs st pre) a b =
      { processPairs st pre with logs := (processPairs st pre).logs ++ [w] }) ∧
    (processPairs st (pre ++ a :: b :: suf)).routes
      = (processPairs st (pre ++ suf)).routes ∧
    (processPairs st (pre ++ a :: b :: suf)).gw
      = (processPairs st (pre ++ suf)).gw ∧
    (processPairs st (pre ++ a :: b :: suf)).haveRoutes
      = (processPairs st (pre ++ suf)).haveRoutes := by
  obtain ⟨w, hw⟩ := pairRejected_delta a b hrej
  have hstep : ∀ X : CRResult, processPair X a b = { X with logs := X.logs ++ [w] } := by
    intro X
    rw [processPair_merge, hw]
    simp [mergeCR, emptyCR]
  have hL : processPairs st (pre ++ a :: b :: suf)
      = processPairs { processPairs st pre with
                       logs := (processPairs st pre).logs ++ [w] } suf := by
    rw [processPairs_append pre hpre]
    show processPairs (processPair (processPairs st pre) a b) suf = _
    rw [hstep]
  have hR : processPairs st (pre ++ suf) = processPairs (processPairs st pre) suf :=
    processPairs_append pre hpre st suf
  have hinv : ∀ (X : CRResult) (lg : List LogMsg),
      (processPairs { X with logs := lg } suf).routes = (processPairs X suf).routes ∧
      (processPairs { X with logs := lg } suf).gw = (processPairs X suf).gw ∧
      (processPairs { X with logs := lg } suf).haveRoutes
        = (processPairs X suf).haveRoutes := by
    intro X lg
    rw [processPairs_merge suf { X with logs := lg }, processPairs_merge suf X]
    cases hg : (processPairs emptyCR suf).gw <;> simp [mergeCR, hg]
  refine ⟨⟨w, hstep _⟩, ?_, ?_, ?_⟩ <;> rw [hL, hR]
  · exact (hinv (processPairs st pre) _).1
  · exact (hinv (processPairs st pre) _).2.1
  · exact (hinv (processPairs st pre) _).2.2

/-- Witness for the amended C8: a detected-invalid pair (destination octet
999) between two valid pairs leaves the other pairs' routes unchanged. -/
theorem c8_invalid_pair_skipped_witness :
    pairRejected "1.2.3.999" "5.6.7.8" = true ∧
    (["10.0.0.0/8", "192.0.2.1"] : List String).length % 2 = 0 ∧
    (processPairs emptyCR
        (["10.0.0.0/8", "192.0.2.1"] ++ "1.2.3.999" :: "5.6.7.8" ::
          ["172.16.0.0/12", "10.0.0.1"])).routes
      = (processPairs emptyCR
          (["10.0.0.0/8", "192.0.2.1"] ++ ["172.16.0.0/12", "10.0.0.1"])).routes :=
  ⟨rfl, rfl,
    (c8_invalid_pair_skipped emptyCR ["10.0.0.0/8", "192.0.2.1"]
      ["172.16.0.0/12", "10.0.0.1"] "1.2.3.999" "5.6.7.8" rfl rfl).2.1⟩

theorem start_client_eq_none (s : MgrState) (iface : String) (ok : Bool) (pid : Int)
    (h : get_client_for_iface s iface = none) :
    nm_dhcp_manager_start_client s iface ok pid =
      (if ok then
        ⟨{ add_client s ⟨s.nextId, ClientType.dhclient, iface, pid⟩ with
            nextId := s.nextId + 1 },
         ⟨s.nextId, ClientType.dhclient, iface, pid⟩,
         some ⟨s.nextId, ClientType.dhclient, iface, pid⟩, none⟩
       else
        ⟨remove_client
            { add_client s ⟨s.nextId, ClientType.dhclient, iface, pid⟩ with
              nextId := s.nextId + 1 }
            ⟨s.nextId, ClientType.dhclient, iface, pid⟩,
         ⟨s.nextId, ClientType.dhclient, iface, pid⟩, none, none⟩) := by
  unfold nm_dhcp_manager_start_client
  rw [h]

theorem start_client_eq_some (s : MgrState) (iface : String) (ok : Bool) (pid : Int)
    (old : Client) (h : get_client_for_iface s iface = some old) :
    nm_dhcp_manager_start_client s iface ok pid =
      (if ok then
        ⟨{ add_client (remove_client s old) ⟨s.nextId, ClientType.dhclient, iface, pid⟩ with
            nextId := s.nextId + 1 },
         ⟨s.nextId, ClientType.dhclient, iface, pid⟩,
         some ⟨s.nextId, ClientType.dhclient, iface, pid⟩, some old⟩
       else
        ⟨remove_client
            { add_client (remove_client s old) ⟨s.nextId, ClientType.dhclient, iface, pid⟩ with
              nextId := s.nextId + 1 }
            ⟨s.nextId, ClientType.dhclient, iface, pid⟩,
         ⟨s.nextId, ClientType.dhclient, iface, pid⟩, none, some old⟩) := by
  unfold nm_dhcp_manager_start_client
  rw [h]
  rfl

theorem regOk_remove (s : MgrState) (c : Client) (h : RegOk s) : RegOk (remove_client s c) := by
  obtain ⟨hp, hb⟩ := h
  refine And.intro ?_ ?_
  · exact hp.sublist (List.filter_sublist s.clients)
  · intro x hx
    exact hb x (List.mem_filter.mp hx).1

theorem find_iface_of_mem (iface : String) :
    ∀ (l : List Client), l.Pairwise (fun a b => a.iface ≠ b.iface ∧ a.id ≠ b.id) →
    ∀ old, old ∈ l → old.iface = iface →
    l.find? (fun c => c.iface == iface) = some old
  | [], _, old, hmem, _ => absurd hmem (by simp)
  | h :: t, hp, old, hmem, hif => by
    rcases List.mem_cons.mp hmem with rfl | hmem2
    · exact List.find?_cons_of_pos t (beq_iff_eq.mpr hif)
    · have hh : ¬ ((h.iface == iface) = true) := by
        have hne := (List.pairwise_cons.mp hp).1 old hmem2
        simp only [beq_iff_eq]
        exact hif ▸ hne.1
      rw [List.find?_cons_of_neg t hh]
      exact find_iface_of_mem iface t (List.pairwise_cons.mp hp).2 old hmem2 hif

theorem filtered_iface_free (iface : String) (l : List Client)
    (hp : l.Pairwise (fun a b => a.iface ≠ b.iface ∧ a.id ≠ b.id))
    (old : Client) (hmem : old ∈ l) (hif : old.iface = iface) :
    ∀ x ∈ l.filter (fun x => x.id != old.id), x.iface ≠ iface := by
  intro x hx hxif
  obtain ⟨hxl, hxid⟩ := List.mem_filter.mp hx
  have hxo : x ≠ old := by
    intro he
    rw [he] at hxid
    simp at hxid
  have hsym : Symmetric (fun a b : Client => a.iface ≠ b.iface ∧ a.id ≠ b.id) := by
    intro a b hab
    exact ⟨Ne.symm hab.1, Ne.symm hab.2⟩
  have hR := hp.forall hsym hxl hmem hxo
  exact hR.1 (hxif.trans hif.symm)

theorem regOk_addNew (s1 : MgrState) (iface : String) (pid : Int)
    (hp : s1.clients.Pairwise (fun a b => a.iface ≠ b.iface ∧ a.id ≠ b.id))
    (hb : ∀ c ∈ s1.clients, c.id < s1.nextId)
    (hif : ∀ x ∈ s1.clients, x.iface ≠ iface) :
    RegOk { add_client s1 ⟨s1.nextId, ClientType.dhclient, iface, pid⟩ with
            nextId := s1.nextId + 1 } := by
  refine And.intro ?_ ?_
  · show List.Pairwise _ ((⟨s1.nextId, ClientType.dhclient, iface, pid⟩ : Client) :: s1.clients)
    refine List.pairwise_cons.mpr ⟨?_, hp⟩
    intro x hx
    refine ⟨fun he => hif x hx he.symm, ?_⟩
    have := hb x hx
    show s1.nextId ≠ x.id
    omega
  · intro c hc
    show c.id < s1.nextId + 1
    rcases List.mem_cons.mp hc with rfl | hc2
    · show s1.nextId < s1.nextId + 1
      omega
    · have := hb c hc2
      omega

theorem regOk_start (s : MgrState) (iface : String) (ok : Bool) (pid : Int) (h : RegOk s) :
    RegOk (nm_dhcp_manager_start_client s iface ok pid).state := by
  obtain ⟨hp, hb⟩ := h
  cases hold : get_client_for_iface s iface with
  | none =>
    have hif : ∀ x ∈ s.clients, x.iface ≠ iface := by
      intro x hx
      unfold get_client_for_iface at hold
      have := List.find?_eq_none.mp hold x hx
      simpa using this
    rw [start_client_eq_none s iface ok pid hold]
    have base := regOk_addNew s iface pid hp hb hif
    cases ok
    · exact regOk_remove _ _ base
    · exact base
  | some old =>
    unfold get_client_for_iface at hold
    have hmem := List.mem_of_find?_eq_some hold
    have holdif : old.iface = iface := by
      have := List.find?_some hold
      simpa using this
    rw [start_client_eq_some s iface ok pid old (by unfold get_client_for_iface; exact hold)]
    have hp1 : (remove_client s old).clients.Pairwise
        (fun a b => a.iface ≠ b.iface ∧ a.id ≠ b.id) :=
      hp.sublist (List.filter_sublist s.clients)
    have hb1 : ∀ c ∈ (remove_client s old).clients, c.id < (remove_client s old).nextId :=
      fun c hc => hb c (List.mem_filter.mp hc).1
    have hif1 : ∀ x ∈ (remove_client s old).clients, x.iface ≠ iface :=
      filtered_iface_free iface s.clients hp old hmem holdif
    have base := regOk_addNew (remove_client s old) iface pid hp1 hb1 hif1
    cases ok
    · exact regOk_remove _ _ base
    · exact base

theorem reachable_regOk (s : MgrState) (h : Reachable s) : RegOk s := by
  induction h with
  | init sel dOk cOk s hnew =>
    unfold nm_dhcp_manager_new at hnew
    split_ifs at hnew with h1 h2
    · cases hnew
      exact ⟨List.Pairwise.nil, fun c hc => absurd hc (by simp)⟩
    · cases hnew
      exact ⟨List.Pairwise.nil, fun c hc => absurd hc (by simp)⟩
  | start iface ok pid s _ ih => exact regOk_start s iface ok pid ih
  | stateChanged c st s _ ih =>
    unfold client_state_changed
    split_ifs with h1
    · exact regOk_remove s c ih
    · exact ih
  | timeoutSignal c s _ ih => exact regOk_remove s c ih

/-- Claim C2 (amended): `nm_dhcp_manager_start_client` always constructs
the new client with the hard-wired `NM_TYPE_DHCP_DHCLIENT`, so the
constructed type equals the configured `priv->client_type` exactly when
the back-end selector chose dhclient. -/
theorem c2_start_client_backend_type (s : MgrState) (iface : String) (ok : Bool) (pid : Int) :
    (nm_dhcp_manager_start_client s iface ok pid).newClient.ctype = ClientType.dhclient ∧
    ((nm_dhcp_manager_start_client s iface ok pid).newClient.ctype = s.clientType ↔
      s.clientType = ClientType.dhclient) := by
  have h : (nm_dhcp_manager_start_client s iface ok pid).newClient.ctype
      = ClientType.dhclient := by
    cases hold : get_client_for_iface s iface with
    | none =>
      rw [start_client_eq_none s iface ok pid hold]
      cases ok <;> rfl
    | some old =>
      rw [start_client_eq_some s iface ok pid old hold]
      cases ok <;> rfl
  exact ⟨h, by rw [h]; exact eq_comm⟩

/-- Counterexample to claim C2 as stated: a manager constructed with the
"dhcpcd" selector stores `client_type` dhcpcd, yet the client constructed
by `nm_dhcp_manager_start_client` is of type dhclient. -/
theorem c2_counterexample_dhcpcd_selector :
    nm_dhcp_manager_new "dhcpcd" true true = some ⟨ClientType.dhcpcd, [], 0⟩ ∧
    (nm_dhcp_manager_start_client ⟨ClientType.dhcpcd, [], 0⟩ "eth0" true 42).newClient.ctype
      = ClientType.dhclient ∧
    ClientType.dhclient ≠ ClientType.dhcpcd :=
  ⟨rfl, rfl, by decide⟩

/-- Claim C4 (amended): the manager removes a client from the registry on
a state-changed signal carrying ABEND or END and on the timeout signal;
a state-changed signal carrying FAIL or TIMEOUT alone leaves the registry
unchanged. -/
theorem c4_terminal_state_removal (s : MgrState) (c : Client) (st : DhcpState) :
    (st = DhcpState.abend ∨ st = DhcpState.ended →
      c ∉ (client_state_changed s c st).clients) ∧
    c ∉ (client_timeout s c).clients ∧
    (st = DhcpState.fail ∨ st = DhcpState.timeout → client_state_changed s c st = s) := by
  have hrem : c ∉ (remove_client s c).clients := by
    intro hc
    have := (List.mem_filter.mp hc).2
    simp at this
  refine ⟨?_, hrem, ?_⟩
  · intro h
    unfold client_state_changed
    rw [if_pos h]
    exact hrem
  · intro h
    rcases h with rfl | rfl <;> simp [client_state_changed]

/-- Witness for the amended C4 at a concrete registry and the ABEND
state. -/
theorem c4_terminal_state_removal_witness :
    (⟨7, ClientType.dhclient, "eth0", 55⟩ : Client) ∉
      (client_state_changed ⟨ClientType.dhclient, [⟨7, ClientType.dhclient, "eth0", 55⟩], 8⟩
        ⟨7, ClientType.dhclient, "eth0", 55⟩ DhcpState.abend).clients :=
  (c4_terminal_state_removal ⟨ClientType.dhclient, [⟨7, ClientType.dhclient, "eth0", 55⟩], 8⟩
    ⟨7, ClientType.dhclient, "eth0", 55⟩ DhcpState.abend).1 (Or.inl rfl)

/-- Counterexample to claim C4 as stated: a state-changed signal carrying
FAIL does not remove the client — the registry is unchanged and the client
is still a member. -/
theorem c4_counterexample_fail_not_removed :
    client_state_changed ⟨ClientType.dhclient, [⟨0, ClientType.dhclient, "eth0", 123⟩], 1⟩
        ⟨0, ClientType.dhclient, "eth0", 123⟩ DhcpState.fail
      = ⟨ClientType.dhclient, [⟨0, ClientType.dhclient, "eth0", 123⟩], 1⟩ ∧
    (⟨0, ClientType.dhclient, "eth0", 123⟩ : Client) ∈
      (client_state_changed ⟨ClientType.dhclient, [⟨0, ClientType.dhclient, "eth0", 123⟩], 1⟩
        ⟨0, ClientType.dhclient, "eth0", 123⟩ DhcpState.fail).clients :=
  ⟨rfl, by decide⟩

/-- Claim C5 (amended): `nm_dhcp_manager_handle_event` drops an event at
the pid-parsing step exactly when `strtoul` returned `ULONG_MAX` with
errno ERANGE; any other pid string — including ones that are not
well-formed decimals — is not rejected there, and a delivered event used
the `GPid` cast of whatever `strtoul` returned for it. -/
theorem c5_pid_parse_policy (clients : List Client) (options : List (String × OptVal)) :
    (∀ i p, get_option options "interface" = some i →
      get_option options "pid" = some p →
      (strtoul10 p).val = ulongMax ∧ (strtoul10 p).erange = true →
      nm_dhcp_manager_handle_event clients options = HEResult.badPid) ∧
    (∀ c r, nm_dhcp_manager_handle_event clients options = HEResult.delivered c r →
      ∃ p, get_option options "pid" = some p ∧
        ¬ ((strtoul10 p).val = ulongMax ∧ (strtoul10 p).erange = true) ∧
        c.pid = toGPid (strtoul10 p).val) := by
  constructor
  · intro i p hi hp hbad
    simp only [nm_dhcp_manager_handle_event, hi, hp, if_pos hbad]
  · intro c r hdel
    unfold nm_dhcp_manager_handle_event at hdel
    cases hi : get_option options "interface" with
    | none =>
      simp only [hi] at hdel
      simp at hdel
    | some iface =>
      simp only [hi] at hdel
      cases hp : get_option options "pid" with
      | none =>
        simp only [hp] at hdel
        simp at hdel
      | some p =>
        simp only [hp] at hdel
        by_cases hb : (strtoul10 p).val = ulongMax ∧ (strtoul10 p).erange = true
        · rw [if_pos hb] at hdel
          simp at hdel
        · rw [if_neg hb] at hdel
          refine ⟨p, rfl, hb, ?_⟩
          cases hfind : get_client_for_pid clients (toGPid (strtoul10 p).val) with
          | none =>
            simp only [hfind] at hdel
            simp at hdel
          | some client =>
            simp only [hfind] at hdel
            have hpid : client.pid = toGPid (strtoul10 p).val := by
              unfold get_client_for_pid at hfind
              have := List.find?_some hfind
              simpa using this
            by_cases hif : iface ≠ client.iface
            · rw [if_pos hif] at hdel
              simp at hdel
            · rw [if_neg hif] at hdel
              cases hr : get_option options "reason" with
              | none =>
                simp only [hr] at hdel
                simp at hdel
              | some reason =>
                simp only [hr] at hdel
                injection hdel with h1 h2
                rw [← h1]
                exact hpid

/-- Witness for the amended C5: a pid byte array of twenty-three 9s
overflows `unsigned long`, so the event is dropped at the pid step. -/
theorem c5_pid_parse_policy_witness :
    nm_dhcp_manager_handle_event []
      [("interface", OptVal.bytes [101]),
       ("pid", OptVal.bytes [57, 57, 57, 57, 57, 57, 57, 57, 57, 57, 57, 57,
                             57, 57, 57, 57, 57, 57, 57, 57, 57, 57, 57])]
      = HEResult.badPid :=
  (c5_pid_parse_policy []
    [("interface", OptVal.bytes [101]),
     ("pid", OptVal.bytes [57, 57, 57, 57, 57, 57, 57, 57, 57, 57, 57, 57,
                           57, 57, 57, 57, 57, 57, 57, 57, 57, 57, 57])]).1
    "e" "99999999999999999999999" rfl rfl ⟨rfl, rfl⟩

/-- Counterexample to claim C5 as stated: "123abc" is not a well-formed
decimal number, yet the event is not rejected — `strtoul` yields its
numeric prefix 123 without errno and the event is delivered to the client
with pid 123. -/
theorem c5_counterexample_malformed_pid_delivered :
    ("123abc".data.all Char.isDigit) = false ∧
    get_option [("interface", OptVal.bytes [101, 116, 104, 48]),
                ("pid", OptVal.bytes [49, 50, 51, 97, 98, 99]),
                ("reason", OptVal.bytes [66, 79, 85, 78, 68])] "pid" = some "123abc" ∧
    nm_dhcp_manager_handle_event [⟨0, ClientType.dhclient, "eth0", 123⟩]
      [("interface", OptVal.bytes [101, 116, 104, 48]),
       ("pid", OptVal.bytes [49, 50, 51, 97, 98, 99]),
       ("reason", OptVal.bytes [66, 79, 85, 78, 68])]
      = HEResult.delivered ⟨0, ClientType.dhclient, "eth0", 123⟩ "BOUND" :=
  ⟨rfl, rfl, rfl⟩

/-- Claim C6: at every reachable manager state the registered clients
have pairwise distinct interface names, and for a client registered under
`iface`, `nm_dhcp_manager_start_client` for `iface` stops exactly that
client and the new state no longer contains it. -/
theorem c6_unique_iface (s : MgrState) (h : Reachable s) :
    s.clients.Pairwise (fun a b => a.iface ≠ b.iface) ∧
    ∀ iface old, old ∈ s.clients → old.iface = iface → ∀ ok pid,
      (nm_dhcp_manager_start_client s iface ok pid).stoppedOld = some old ∧
      old ∉ (nm_dhcp_manager_start_client s iface ok pid).state.clients := by
  obtain ⟨hp, hb⟩ := reachable_regOk s h
  refine ⟨hp.imp (fun hab => hab.1), ?_⟩
  intro iface old hmem hif ok pid
  have hfind : get_client_for_iface s iface = some old := by
    unfold get_client_for_iface
    exact find_iface_of_mem iface s.clients hp old hmem hif
  rw [start_client_eq_some s iface ok pid old hfind]
  have hids := hb old hmem
  have hnotin : old ∉ ((⟨s.nextId, ClientType.dhclient, iface, pid⟩ : Client) ::
      s.clients.filter (fun x => x.id != old.id)) := by
    intro hc
    rcases List.mem_cons.mp hc with he | hc2
    · have : old.id = s.nextId := congrArg Client.id he
      omega
    · have := (List.mem_filter.mp hc2).2
      simp at this
  cases ok with
  | false =>
    refine ⟨rfl, ?_⟩
    intro hc
    exact hnotin (List.mem_filter.mp hc).1
  | true => exact ⟨rfl, hnotin⟩

/-- Witness for C6 at a concrete reachable state with one client. -/
theorem c6_unique_iface_witness :
    List.Pairwise (fun a b : Client => a.iface ≠ b.iface)
      (nm_dhcp_manager_start_client ⟨ClientType.dhclient, [], 0⟩ "eth0" true 5).state.clients :=
  (c6_unique_iface _ (Reachable.start "eth0" true 5 _
    (Reachable.init "dhclient" true true _ rfl))).1

end NMDhcp
